import Mathlib

/-!
# Notes API — key-value layer verification

Shallow embedding of the Redis-backed core of the Notes API
(`app/cache.py`, `app/rate_limit.py`, `app/recent.py`, `app/redis_client.py`,
and the `_safe_*` wrappers plus handlers of `app/main.py`), together with
proofs of the spec's testable properties.

Modelling conventions:
* Time is a `Nat` clock (`now`); a Redis key whose expiry `e` satisfies
  `now < e` is live, otherwise it has expired and reads behave as if the key
  were absent.
* The Redis connection is a `ClientState`: `ok` (every command succeeds) or
  `failing` (every command raises `redis.RedisError`).  The handlers receive
  an `Option ClientState`; `none` models an absent (`None`) client.
* Python exceptions are the `Err` type: `redis` for `redis.RedisError`,
  `json` for the `json.JSONDecodeError` / pydantic `ValidationError` raised
  while deserialising a cached payload, `attr` for the `AttributeError`
  raised by calling a method on `None`, and `http s` for
  `fastapi.HTTPException(status_code=s)`.
* Serialised payloads are the `Payload` type: `noteJson n` is the result of
  `note.model_dump_json()` (pydantic JSON round-trips: parsing it yields `n`
  back), `empty` is an empty byte string (falsy in Python, so treated as a
  miss by `get_cached_note`), and `malformed` is any other byte string on
  which `json.loads` / `Note(**payload)` fails.
-/

namespace NotesAPI

/-- Python exceptions that the embedded operations can raise. -/
inductive Err where
  | redis
  | json
  | attr
  | http (status : Nat)
deriving DecidableEq, Repr

/-- `redis.asyncio.Redis` connection state: every command either succeeds
(store reachable) or raises `redis.RedisError` (store unreachable/timeout). -/
inductive ClientState where
  | ok
  | failing
deriving DecidableEq, Repr

/-- `app/schemas.py`: the `Note` pydantic model (mirrors `models.Note`).
Timestamps are modelled as integers. -/
structure Note where
  id : Int
  title : String
  content : String
  tags : Option (List String)
  created_at : Int
  updated_at : Int
  is_deleted : Bool
  deleted_at : Option Int
deriving DecidableEq, Repr

/-- Bytes stored under a `note:{id}` cache key. -/
inductive Payload where
  /-- `note.model_dump_json()` of a well-formed note. -/
  | noteJson (n : Note)
  /-- An empty byte string (falsy, so `get_cached_note` treats it as a miss). -/
  | empty
  /-- A non-empty byte string that `json.loads` / `Note(**payload)` rejects. -/
  | malformed
deriving DecidableEq, Repr

/-- `app/config.py` `Settings`: the configuration fields the core consumes. -/
structure Settings where
  rate_limit : Nat
  rate_limit_window_seconds : Nat
  note_cache_ttl_seconds : Nat
  recent_notes_limit : Nat
deriving DecidableEq, Repr

/-- The Redis database.  The three key namespaces (`note:{id}`,
`rate:ip:{ip}`, `recent:ip:{ip}`) are disjoint, so they are modelled as three
separate maps.  Each value carries its expiry: an absolute expiry time for
cache entries (always set by `SET ... EX`), and an `Option Nat` expiry for
rate counters and recent lists (`none` = key has no TTL, i.e. persists). -/
structure Store where
  notes : Int → Option (Payload × Nat)
  rate : String → Option (Nat × Option Nat)
  recent : String → Option (List Int × Option Nat)

/-- The store with no keys. -/
def Store.empty : Store :=
  { notes := fun _ => none, rate := fun _ => none, recent := fun _ => none }

/-- A `note:{id}` key as seen by `GET` at time `now`: expired entries read
as absent. -/
def liveNote (now : Nat) : Option (Payload × Nat) → Option Payload
  | some (p, e) => if now < e then some p else none
  | none => none

/-- A `rate:ip:{ip}` key as seen at time `now`: a key with TTL `some e`
expires at `e`; a key with no TTL never expires. -/
def liveRate (now : Nat) : Option (Nat × Option Nat) → Option (Nat × Option Nat)
  | some (c, some e) => if now < e then some (c, some e) else none
  | some (c, none) => some (c, none)
  | none => none

/-- A `recent:ip:{ip}` key as seen at time `now`. -/
def liveRecent (now : Nat) : Option (List Int × Option Nat) → Option (List Int × Option Nat)
  | some (l, some e) => if now < e then some (l, some e) else none
  | some (l, none) => some (l, none)
  | none => none

/-! ## app/cache.py -/

/-- `json.loads(data)` followed by `Note(**payload)`: a well-formed payload
deserialises back to its note; a malformed one raises (uncaught by
`except redis.RedisError`). -/
def parseNotePayload : Payload → Except Err Note
  | .noteJson n => .ok n
  | .empty => .error .json
  | .malformed => .error .json

/-- `get_cached_note(client, note_id)`:
`data = await client.get(key); if not data: return None;
payload = json.loads(data); return Note(**payload)`. -/
def get_cached_note (cs : ClientState) (now : Nat) (st : Store) (note_id : Int) :
    Except Err (Option Note) :=
  match cs with
  | .failing => .error .redis
  | .ok =>
    match liveNote now (st.notes note_id) with
    | none => .ok none
    | some .empty => .ok none
    | some p => (parseNotePayload p).map some

/-- `cache_note(client, note)`:
`client.set(key(note.id), note.model_dump_json(), ex=ttl)`. -/
def cache_note (cs : ClientState) (now : Nat) (s : Settings) (st : Store) (note : Note) :
    Except Err Store :=
  match cs with
  | .failing => .error .redis
  | .ok => .ok { st with notes := (fun i =>
      if i = note.id then some (.noteJson note, now + s.note_cache_ttl_seconds)
      else st.notes i) }

/-- `invalidate_note_cache(client, note_id)`: `client.delete(key(note_id))`. -/
def invalidate_note_cache (cs : ClientState) (st : Store) (note_id : Int) :
    Except Err Store :=
  match cs with
  | .failing => .error .redis
  | .ok => .ok { st with notes := fun i => if i = note_id then none else st.notes i }

/-! ## app/main.py — the `_safe_*` degradation wrappers -/

/-- `_safe_get_cached_note`: `if not client: return None` then
`try: return await get_cached_note(...) except redis.RedisError: return None`.
Only `redis.RedisError` is caught; any other exception propagates. -/
def safe_get_cached_note (client : Option ClientState) (now : Nat) (st : Store)
    (note_id : Int) : Except Err (Option Note) :=
  match client with
  | none => .ok none
  | some cs =>
    match get_cached_note cs now st note_id with
    | .error .redis => .ok none
    | r => r

/-- `_safe_cache_note`: `if not client: return` then
`try: await cache_note(...) except redis.RedisError: pass`. -/
def safe_cache_note (client : Option ClientState) (now : Nat) (s : Settings)
    (st : Store) (note : Note) : Except Err Store :=
  match client with
  | none => .ok st
  | some cs =>
    match cache_note cs now s st note with
    | .ok st' => .ok st'
    | .error .redis => .ok st
    | .error e => .error e

/-- `_safe_invalidate_cache`: `if not client: return` then
`try: await invalidate_note_cache(...) except redis.RedisError: pass`. -/
def safe_invalidate_cache (client : Option ClientState) (st : Store)
    (note_id : Int) : Except Err Store :=
  match client with
  | none => .ok st
  | some cs =>
    match invalidate_note_cache cs st note_id with
    | .ok st' => .ok st'
    | .error .redis => .ok st
    | .error e => .error e

/-! ## app/rate_limit.py -/

/-- `INCR key 1` on the live view of a rate key: an absent (or expired) key
is created with value `1` and no TTL; otherwise the count is incremented and
the TTL left as it was.  Returns the post-increment count with the new key
state. -/
def pipeIncr : Option (Nat × Option Nat) → Nat × (Nat × Option Nat)
  | none => (1, (1, none))
  | some (c, e) => (c + 1, (c + 1, e))

/-- `EXPIRE key window NX`: set the expiry to `now + window` only if the key
currently has no TTL; a key that already has a TTL is left unchanged. -/
def pipeExpireNx (now window : Nat) : Nat × Option Nat → Nat × Option Nat
  | (c, none) => (c, some (now + window))
  | (c, some e) => (c, some e)

/-- `rate_limiter(request, client)` from `app/rate_limit.py`, acting on the
state of one client's `rate:ip:{ip}` key.  The pipeline
`INCR key 1; EXPIRE key window NX` executes atomically; if it raises
`redis.RedisError` the function returns (request allowed, no state change).
After the pipeline, `if current_count and int(current_count) > settings.rate_limit`
raises `HTTPException(429)` (the count is at least 1, hence always truthy).
A `none` client is unguarded: `client.pipeline()` raises `AttributeError`,
which `except redis.RedisError` does not catch. -/
def rate_limiter (client : Option ClientState) (s : Settings) (now : Nat)
    (st : Option (Nat × Option Nat)) : Except Err Unit × Option (Nat × Option Nat) :=
  match client with
  | none => (.error .attr, st)
  | some .failing => (.ok (), st)
  | some .ok =>
    let (count, st1) := pipeIncr (liveRate now st)
    let st2 := pipeExpireNx now s.rate_limit_window_seconds st1
    (if s.rate_limit < count then .error (.http 429) else .ok (), some st2)

/-- A sequence of requests from one client at the given times, folded through
`rate_limiter`: returns the per-request outcomes and the final key state. -/
def runRateRequests (client : Option ClientState) (s : Settings) :
    List Nat → Option (Nat × Option Nat) →
    List (Except Err Unit) × Option (Nat × Option Nat)
  | [], st => ([], st)
  | t :: ts, st =>
    let r := rate_limiter client s t st
    let rest := runRateRequests client s ts r.2
    (r.1 :: rest.1, rest.2)

/-! ## app/recent.py -/

/-- `LTRIM key 0 stop` restricted to start index 0: keep indices `0..stop`,
where a negative `stop` counts from the end of the list (`-1` is the last
element, so `LTRIM 0 -1` keeps everything). -/
def ltrim0 (l : List Int) (stop : Int) : List Int :=
  let s : Int := if stop < 0 then l.length + stop else stop
  l.take (s + 1).toNat

/-- `LRANGE key 0 stop` with the same index convention. -/
def lrange0 (l : List Int) (stop : Int) : List Int := ltrim0 l stop

/-- The effect of the `push_recent_note` pipeline on the list itself:
`LREM key 0 id` (remove all occurrences), `LPUSH key id` (insert at front),
`LTRIM key 0 (recent_notes_limit - 1)`. -/
def pushRecentList (maxLen : Nat) (l : List Int) (note_id : Int) : List Int :=
  ltrim0 (note_id :: l.filter (fun x => x != note_id)) ((maxLen : Int) - 1)

/-- The list content `LREM`/`LPUSH`/`LTRIM` start from: the key's live list,
or the empty list when the key is absent or expired. -/
def recentOld (now : Nat) (v : Option (List Int × Option Nat)) : List Int :=
  match liveRecent now v with
  | some (l, _) => l
  | none => []

/-- `push_recent_note(client, ip, note_id)`: the four-command pipeline on the
client's `recent:ip:{ip}` key; the final `EXPIRE key rate_limit_window_seconds`
(no NX) always refreshes the TTL.  The pipeline executes atomically, and a
`redis.RedisError` propagates to the caller (`_safe_push_recent` catches it). -/
def push_recent_note (cs : ClientState) (s : Settings) (now : Nat) (st : Store)
    (ip : String) (note_id : Int) : Except Err Store :=
  match cs with
  | .failing => .error .redis
  | .ok =>
    let newList := pushRecentList s.recent_notes_limit (recentOld now (st.recent ip)) note_id
    .ok { st with recent := (fun j =>
      if j = ip then some (newList, some (now + s.rate_limit_window_seconds))
      else st.recent j) }

/-- `get_recent_notes(client, ip)`:
`values = client.lrange(key, 0, recent_notes_limit - 1); return [int(v) for v in values]`
(an absent or expired key yields the empty list). -/
def get_recent_notes (cs : ClientState) (s : Settings) (now : Nat) (st : Store)
    (ip : String) : Except Err (List Int) :=
  match cs with
  | .failing => .error .redis
  | .ok =>
    match liveRecent now (st.recent ip) with
    | none => .ok []
    | some (l, _) => .ok (lrange0 l ((s.recent_notes_limit : Int) - 1))

/-- `_safe_push_recent`: `if not client: return; if not request.client: return`
then `try: await push_recent_note(...) except redis.RedisError: pass`.
`ip` is `request.client.host`, absent when `request.client` is `None`. -/
def safe_push_recent (client : Option ClientState) (s : Settings) (now : Nat)
    (st : Store) (ip : Option String) (note_id : Int) : Except Err Store :=
  match client, ip with
  | none, _ => .ok st
  | some _, none => .ok st
  | some cs, some i =>
    match push_recent_note cs s now st i note_id with
    | .ok st' => .ok st'
    | .error .redis => .ok st
    | .error e => .error e

/-- `_safe_get_recent`: `if not client or not request.client: return []` then
`try: return await get_recent_notes(...) except redis.RedisError: return []`. -/
def safe_get_recent (client : Option ClientState) (s : Settings) (now : Nat)
    (st : Store) (ip : Option String) : Except Err (List Int) :=
  match client, ip with
  | none, _ => .ok []
  | some _, none => .ok []
  | some cs, some i =>
    match get_recent_notes cs s now st i with
    | .ok l => .ok l
    | .error .redis => .ok []
    | .error e => .error e

/-! ## app/crud.py — the persistence layer (relational store as `Int → Option Note`) -/

/-- `crud.get_note(db, note_id, include_deleted)`:
`SELECT ... WHERE id = note_id [AND is_deleted IS FALSE]`. -/
def crud_get_note (db : Int → Option Note) (note_id : Int) (include_deleted : Bool) :
    Option Note :=
  match db note_id with
  | none => none
  | some n => if !include_deleted && n.is_deleted then none else some n

/-- `crud.soft_delete_note(db, note)`: sets `is_deleted = True` and
`deleted_at = utcnow()`; the ORM's `onupdate` also refreshes `updated_at`. -/
def soft_delete_note (tDel : Int) (n : Note) : Note :=
  { n with is_deleted := true, deleted_at := some tDel, updated_at := tDel }

/-! ## app/main.py — handlers -/

/-- `read_note` (`GET /notes/{note_id}`): cache-aside read.  With `use_cache`
it first consults `_safe_get_cached_note`; a cache hit is pushed onto the
client's recent list and returned.  On a miss it reads the relational store
(honouring `include_deleted`), raises 404 when absent, otherwise caches the
note, pushes it onto the recent list, and returns it.  The pair carries the
handler outcome and the Redis store after the request. -/
def read_note (client : Option ClientState) (s : Settings) (now : Nat)
    (db : Int → Option Note) (st : Store) (ip : Option String) (note_id : Int)
    (use_cache include_deleted : Bool) : Except Err Note × Store :=
  let cached : Except Err (Option Note) :=
    if use_cache then safe_get_cached_note client now st note_id else .ok none
  match cached with
  | .error e => (.error e, st)
  | .ok (some n) =>
    match safe_push_recent client s now st ip note_id with
    | .ok st' => (.ok n, st')
    | .error e => (.error e, st)
  | .ok none =>
    match crud_get_note db note_id include_deleted with
    | none => (.error (.http 404), st)
    | some note =>
      match safe_cache_note client now s st note with
      | .error e => (.error e, st)
      | .ok st1 =>
        match safe_push_recent client s now st1 ip note_id with
        | .ok st2 => (.ok note, st2)
        | .error e => (.error e, st1)

/-- `delete_note` (`DELETE /notes/{note_id}`): fetch with
`include_deleted=True`; if the note is absent or already soft-deleted, raise
404 (nothing written, nothing invalidated).  Otherwise soft-delete it in the
relational store and then invalidate its cache entry.  Returns the outcome
together with the relational store and the Redis store after the request. -/
def delete_note (client : Option ClientState) (tDel : Int)
    (db : Int → Option Note) (st : Store) (note_id : Int) :
    Except Err Note × (Int → Option Note) × Store :=
  match crud_get_note db note_id true with
  | none => (.error (.http 404), db, st)
  | some n =>
    if n.is_deleted then (.error (.http 404), db, st)
    else
      let n' := soft_delete_note tDel n
      let db' : Int → Option Note := fun i => if i = note_id then some n' else db i
      match safe_invalidate_cache client st note_id with
      | .ok st' => (.ok n', db', st')
      | .error e => (.error e, db', st)

/-! ## app/redis_client.py — lazy shared client under double-checked locking

`get_redis` is an async coroutine; many tasks may run it concurrently,
interleaving at its await points (`async with _lock`).  Each caller is a
small program counter; a scheduler step runs one caller one step.  Client
instances are numbered in construction order (`redis.from_url` is lazy — it
builds the client object without connecting, so construction never raises
for an unreachable store). -/

/-- Position of one concurrent caller inside `get_redis`. -/
inductive CallerPC where
  /-- About to evaluate `if _redis_instance is None` (the unlocked check). -/
  | start
  /-- Fast path saw `None`; waiting to enter `async with _lock`. -/
  | wantLock
  /-- Holds `_lock`; about to re-check `_redis_instance`. -/
  | locked
  /-- Returned the client numbered `c`. -/
  | done (c : Nat)
deriving DecidableEq, Repr

/-- Global state of the module: `_redis_instance`, `_lock`, how many times
`redis.from_url` has run, and each caller's program counter. -/
structure InitState where
  inst : Option Nat
  lockHolder : Option Nat
  constructed : Nat
  pcs : List CallerPC
deriving DecidableEq, Repr

/-- `n` callers about to call `get_redis` in a fresh process. -/
def InitState.fresh (n : Nat) : InitState :=
  { inst := none, lockHolder := none, constructed := 0, pcs := List.replicate n .start }

/-- One scheduler step: some caller advances through `get_redis`. -/
inductive InitStep : InitState → InitState → Prop where
  /-- Unlocked check sees an instance: return it. -/
  | fastHit (g : InitState) (i c : Nat) :
      g.pcs[i]? = some .start → g.inst = some c →
      InitStep g { g with pcs := g.pcs.set i (.done c) }
  /-- Unlocked check sees `None`: go wait for the lock. -/
  | fastMiss (g : InitState) (i : Nat) :
      g.pcs[i]? = some .start → g.inst = none →
      InitStep g { g with pcs := g.pcs.set i .wantLock }
  /-- `async with _lock` suspends until the lock is free, then acquires it. -/
  | acquire (g : InitState) (i : Nat) :
      g.pcs[i]? = some .wantLock → g.lockHolder = none →
      InitStep g { g with pcs := g.pcs.set i .locked, lockHolder := some i }
  /-- Locked re-check sees an instance (someone else built it): release and
  return it. -/
  | recheckHit (g : InitState) (i c : Nat) :
      g.pcs[i]? = some .locked → g.lockHolder = some i → g.inst = some c →
      InitStep g { g with pcs := g.pcs.set i (.done c), lockHolder := none }
  /-- Locked re-check still sees `None`: run `redis.from_url`, publish the
  new instance, release, and return it. -/
  | construct (g : InitState) (i : Nat) :
      g.pcs[i]? = some .locked → g.lockHolder = some i → g.inst = none →
      InitStep g { g with pcs := g.pcs.set i (.done g.constructed),
                          inst := some g.constructed,
                          constructed := g.constructed + 1,
                          lockHolder := none }

/-- States reachable from `g0` by scheduler steps. -/
inductive InitReachable (g0 : InitState) : InitState → Prop where
  | refl : InitReachable g0 g0
  | tail {g g' : InitState} : InitReachable g0 g → InitStep g g' → InitReachable g0 g'

/-! ## Concurrent store semantics

`rate_limiter` and `push_recent_note` each issue their commands inside a
single `client.pipeline()` block (redis-py pipelines are transactional by
default), so the store executes each batch atomically: a batch either
applies in full between two other batches or — on a mid-operation failure —
not at all.  `CoreStep` is one such atomic event on the shared store, from
any client at any time. -/

/-- One atomic event on the shared Redis store. -/
inductive CoreStep (s : Settings) : Store → Store → Prop where
  /-- The `rate_limiter` pipeline (`INCR` + `EXPIRE NX`) for some client at
  some time, applied atomically to that client's key. -/
  | rateBatch (st : Store) (now : Nat) (ip : String) :
      CoreStep s st { st with rate := (fun j =>
        if j = ip then (rate_limiter (some .ok) s now (st.rate ip)).2 else st.rate j) }
  /-- The `push_recent_note` pipeline (`LREM`+`LPUSH`+`LTRIM`+`EXPIRE`) for
  some client and note at some time, applied atomically. -/
  | pushBatch (st st' : Store) (now : Nat) (ip : String) (note_id : Int) :
      push_recent_note .ok s now st ip note_id = .ok st' →
      CoreStep s st st'
  /-- A batch that fails mid-operation (connection drop, timeout): the
  transaction applies none of its commands. -/
  | failedBatch (st : Store) : CoreStep s st st

/-- Stores reachable from `g0` by atomic events. -/
inductive CoreReachable (s : Settings) (g0 : Store) : Store → Prop where
  | refl : CoreReachable s g0 g0
  | tail {st st' : Store} : CoreReachable s g0 st → CoreStep s st st' →
      CoreReachable s g0 st'

/-- The invariant the atomic batches maintain: no rate counter without an
expiration, and no recent list that is duplicated, over-length, or without
an expiration. -/
def StoreInv (s : Settings) (st : Store) : Prop :=
  (∀ ip p, st.rate ip = some p → p.2.isSome = true) ∧
  (∀ ip q, st.recent ip = some q →
    q.1.Nodup ∧ q.1.length ≤ s.recent_notes_limit ∧ q.2.isSome = true)

/-! ## Concrete instances used by scenario checks -/

/-- The spec's scenario configuration: limit 3, window 60 s, cache TTL 300 s,
recent-list maximum 5. -/
def scenarioSettings : Settings :=
  { rate_limit := 3, rate_limit_window_seconds := 60,
    note_cache_ttl_seconds := 300, recent_notes_limit := 5 }

/-- A sequence of recent-list pushes starting from an empty list. -/
def pushAll (maxLen : Nat) (ids : List Int) : List Int :=
  ids.foldl (pushRecentList maxLen) []

/-- A sample note used for concrete checks. -/
def sampleNote : Note :=
  { id := 1, title := "title", content := "content", tags := some ["a", "b"],
    created_at := 10, updated_at := 20, is_deleted := false, deleted_at := none }

/-- A soft-deleted note stored under id 5. -/
def deletedNote : Note :=
  { id := 5, title := "gone", content := "gone", tags := none,
    created_at := 0, updated_at := 1, is_deleted := true, deleted_at := some 1 }

/-- A relational store holding only the soft-deleted note. -/
def dbWithDeleted : Int → Option Note :=
  fun i => if i = 5 then some deletedNote else none

/-- A store whose `note:1` key holds a non-empty byte string that is not
valid JSON (or not a valid `Note`), unexpired at time 0. -/
def malformedStore : Store :=
  { Store.empty with notes := fun i => if i = 1 then some (.malformed, 100) else none }

/-! ## Helper lemmas -/

/-- With a positive maximum, `LTRIM 0 (max-1)` is `List.take max`. -/
lemma pushRecentList_eq_take (maxLen : Nat) (h : 1 ≤ maxLen) (l : List Int)
    (note_id : Int) :
    pushRecentList maxLen l note_id =
      (note_id :: l.filter (fun x => x != note_id)).take maxLen := by
  unfold pushRecentList ltrim0
  have h0 : ¬ ((maxLen : Int) - 1 < 0) := by omega
  simp only [if_neg h0]
  congr 1
  omega

/-- Removing every occurrence of a member of a duplicate-free list shortens
it by exactly one. -/
lemma length_filter_ne_of_nodup (l : List Int) (a : Int) (hnd : l.Nodup)
    (hmem : a ∈ l) : (l.filter (fun x => x != a)).length + 1 = l.length := by
  induction l with
  | nil => cases hmem
  | cons b l ih =>
    rcases List.nodup_cons.mp hnd with ⟨hb, hl⟩
    rcases List.mem_cons.mp hmem with rfl | hmem'
    · have : l.filter (fun x => x != a) = l := by
        rw [List.filter_eq_self]
        intro x hx
        simp only [bne_iff_ne, ne_eq]
        rintro rfl
        exact hb hx
      simp [this]
    · have hba : b ≠ a := by rintro rfl; exact hb hmem'
      have hrec := ih hl hmem'
      simp only [List.filter_cons, bne_iff_ne, ne_eq, hba, not_false_eq_true,
        decide_eq_true_eq, if_pos, List.length_cons]
      omega

/-- One push keeps the recent list duplicate-free and within the maximum. -/
lemma pushRecentList_nodup_length (maxLen : Nat) (h : 1 ≤ maxLen) (l : List Int)
    (note_id : Int) (hnd : l.Nodup) :
    (pushRecentList maxLen l note_id).Nodup ∧
    (pushRecentList maxLen l note_id).length ≤ maxLen := by
  rw [pushRecentList_eq_take maxLen h]
  constructor
  · refine (List.take_sublist _ _).nodup ?_
    refine List.nodup_cons.mpr ⟨?_, hnd.filter _⟩
    intro hmem
    rcases List.mem_filter.mp hmem with ⟨-, hne⟩
    simp at hne
  · exact List.length_take_le _ _

/-- Every list produced by a sequence of pushes from the empty list is
duplicate-free and within the maximum. -/
lemma pushAll_inv (maxLen : Nat) (h : 1 ≤ maxLen) (ids : List Int) :
    (pushAll maxLen ids).Nodup ∧ (pushAll maxLen ids).length ≤ maxLen := by
  suffices H : ∀ (l : List Int), l.Nodup → l.length ≤ maxLen →
      (ids.foldl (pushRecentList maxLen) l).Nodup ∧
      (ids.foldl (pushRecentList maxLen) l).length ≤ maxLen by
    exact H [] List.nodup_nil (by simp)
  induction ids with
  | nil => intro l h1 h2; exact ⟨h1, h2⟩
  | cons a ids ih =>
    intro l h1 _
    rcases pushRecentList_nodup_length maxLen h l a h1 with ⟨h1', h2'⟩
    exact ih _ h1' h2'

/-- Pushing an identifier already present in a duplicate-free list within
the maximum moves it to the front and keeps the length. -/
lemma pushRecentList_mem_eq (maxLen : Nat) (h : 1 ≤ maxLen) (l : List Int)
    (note_id : Int) (hnd : l.Nodup) (hlen : l.length ≤ maxLen)
    (hmem : note_id ∈ l) :
    pushRecentList maxLen l note_id = note_id :: l.filter (fun x => x != note_id) ∧
    (pushRecentList maxLen l note_id).length = l.length := by
  have hflen := length_filter_ne_of_nodup l note_id hnd hmem
  have hle : (note_id :: l.filter (fun x => x != note_id)).length ≤ maxLen := by
    simp only [List.length_cons]
    omega
  rw [pushRecentList_eq_take maxLen h, List.take_of_length_le hle]
  refine ⟨rfl, ?_⟩
  simp only [List.length_cons]
  omega

/-- Unfolding equation for `runRateRequests` on a nonempty request list. -/
lemma runRateRequests_cons (client : Option ClientState) (s : Settings)
    (t : Nat) (ts : List Nat) (st : Option (Nat × Option Nat)) :
    runRateRequests client s (t :: ts) st =
      ((rate_limiter client s t st).1 ::
         (runRateRequests client s ts (rate_limiter client s t st).2).1,
       (runRateRequests client s ts (rate_limiter client s t st).2).2) := rfl

/-- A request whose key reads as absent (first of a window, or expired)
creates the counter at 1 with the window-length TTL. -/
lemma rate_limiter_fresh (s : Settings) (t : Nat) (st : Option (Nat × Option Nat))
    (h : liveRate t st = none) :
    rate_limiter (some .ok) s t st =
      ((if s.rate_limit < 1 then .error (.http 429) else .ok ()),
       some (1, some (t + s.rate_limit_window_seconds))) := by
  simp [rate_limiter, h, pipeIncr, pipeExpireNx]

/-- A request on a live counter increments it, leaves the TTL untouched, and
is rejected exactly when the new count exceeds the limit. -/
lemma rate_limiter_live (s : Settings) (t c e : Nat) (h : t < e) :
    rate_limiter (some .ok) s t (some (c, some e)) =
      ((if s.rate_limit < c + 1 then .error (.http 429) else .ok ()),
       some (c + 1, some e)) := by
  simp [rate_limiter, liveRate, if_pos h, pipeIncr, pipeExpireNx]

/-- Running requests against a live counter: every request increments, the
TTL never moves, and the i-th request is rejected exactly when its
post-increment count exceeds the limit. -/
lemma runRate_live (s : Settings) (ts : List Nat) :
    ∀ (c e : Nat), (∀ t ∈ ts, t < e) →
      runRateRequests (some .ok) s ts (some (c, some e)) =
        ((List.range ts.length).map (fun i =>
            if s.rate_limit < c + i + 1 then (.error (.http 429) : Except Err Unit)
            else .ok ()),
         some (c + ts.length, some e)) := by
  induction ts with
  | nil => intro c e _; simp [runRateRequests]
  | cons t ts ih =>
    intro c e h
    have ht : t < e := h t (List.mem_cons_self t ts)
    have hts : ∀ t' ∈ ts, t' < e := fun t' h' => h t' (List.mem_cons_of_mem _ h')
    rw [runRateRequests_cons, rate_limiter_live s t c e ht, ih (c + 1) e hts]
    have hmap : (List.range (ts.length + 1)).map (fun i =>
          if s.rate_limit < c + i + 1 then (.error (.http 429) : Except Err Unit)
          else .ok ()) =
        (if s.rate_limit < c + 1 then (.error (.http 429) : Except Err Unit)
          else .ok ()) ::
          (List.range ts.length).map (fun i =>
            if s.rate_limit < c + 1 + i + 1 then (.error (.http 429) : Except Err Unit)
            else .ok ()) := by
      rw [List.range_succ_eq_map, List.map_cons, List.map_map]
      refine congrArg₂ List.cons rfl ?_
      apply List.map_congr_left
      intro i _
      have hc : c + (i + 1) + 1 = c + 1 + i + 1 := by omega
      simp only [Function.comp_apply, Nat.succ_eq_add_one, hc]
    have hfin : c + 1 + ts.length = c + (ts.length + 1) := by omega
    simp only [List.length_cons, hmap, hfin]

/-- The pushed identifier ends up at the front of the recent list. -/
lemma pushRecentList_head (maxLen : Nat) (h : 1 ≤ maxLen) (l : List Int)
    (note_id : Int) : (pushRecentList maxLen l note_id).head? = some note_id := by
  rw [pushRecentList_eq_take maxLen h]
  obtain ⟨k, rfl⟩ : ∃ k, maxLen = k + 1 := ⟨maxLen - 1, by omega⟩
  simp

/-! ## Claims -/

/-- C2: for every sequence of pushed record identifiers, the recent list
contains no duplicates, has length at most the configured maximum, and is
most-recently-pushed first (the pushed id is always at the front); pushing
an identifier already present moves it to the front without changing the
length.  Scenario: pushing 1,2,3,4,5,6 with maximum 5 yields [6,5,4,3,2],
and then pushing 3 yields [3,6,5,4,2]. -/
theorem recent_list_invariants (maxLen : Nat) (h : 1 ≤ maxLen) :
    (∀ ids : List Int,
      (pushAll maxLen ids).Nodup ∧ (pushAll maxLen ids).length ≤ maxLen) ∧
    (∀ (l : List Int) (note_id : Int), l.Nodup → l.length ≤ maxLen → note_id ∈ l →
      pushRecentList maxLen l note_id = note_id :: l.filter (fun x => x != note_id) ∧
      (pushRecentList maxLen l note_id).length = l.length) ∧
    (∀ (l : List Int) (note_id : Int),
      (pushRecentList maxLen l note_id).head? = some note_id) ∧
    pushAll 5 [1, 2, 3, 4, 5, 6] = [6, 5, 4, 3, 2] ∧
    pushRecentList 5 [6, 5, 4, 3, 2] 3 = [3, 6, 5, 4, 2] := by
  refine ⟨pushAll_inv maxLen h, ?_, ?_, by decide, by decide⟩
  · intro l note_id hnd hlen hmem
    exact pushRecentList_mem_eq maxLen h l note_id hnd hlen hmem
  · intro l note_id
    exact pushRecentList_head maxLen h l note_id

/-- Witness for C2 at the configured maximum 5 and the spec's scenario. -/
theorem recent_list_invariants_witness :
    pushAll 5 [1, 2, 3, 4, 5, 6] = [6, 5, 4, 3, 2] ∧
    pushRecentList 5 [6, 5, 4, 3, 2] 3 = [3, 6, 5, 4, 2] :=
  ⟨(recent_list_invariants 5 (by decide)).2.2.2.1,
   (recent_list_invariants 5 (by decide)).2.2.2.2⟩

/-- C3 (code bug): a malformed cached payload is NOT treated as a miss.
`get_cached_note` parses it with `json.loads` / `Note(**payload)`, whose
exception is not `redis.RedisError`, so `_safe_get_cached_note` re-raises it
and the read handler surfaces it to the caller instead of returning absent. -/
theorem malformed_payload_raises :
    get_cached_note .ok 0 malformedStore 1 = .error .json ∧
    safe_get_cached_note (some .ok) 0 malformedStore 1 = .error .json ∧
    (read_note (some .ok) scenarioSettings 0 (fun _ => none) malformedStore
      (some "a") 1 true false).1 = .error .json :=
  ⟨rfl, rfl, rfl⟩

/-- C4 (counterexample): the rate limiter is not guarded against an absent
client: with `client = None`, `client.pipeline()` raises `AttributeError`
(uncaught by `except redis.RedisError`), so the request errors instead of
being allowed — absent client and unreachable store do not behave
identically for this operation. -/
theorem rate_limiter_absent_client_raises :
    (rate_limiter none scenarioSettings 0 none).1 = .error .attr ∧
    (rate_limiter none scenarioSettings 0 none).1 ≠ .ok () ∧
    (rate_limiter (some .failing) scenarioSettings 0 none).1 = .ok () := by
  refine ⟨rfl, ?_, rfl⟩
  intro hcontra
  exact Except.noConfusion hcontra

/-- C4 (amended): when every store command fails, no wrapped operation
raises: cache get returns absent, cache put and invalidate are silently
skipped, the rate limiter allows the request without touching state, recent
push is a no-op and recent read returns the empty list.  An absent client
behaves identically for the five `_safe_*` wrappers (the rate limiter alone
accesses the client unguarded). -/
theorem degraded_ops_fail_open (s : Settings) (now : Nat) (st : Store)
    (note : Note) (note_id : Int) (i : String)
    (rst : Option (Nat × Option Nat)) :
    safe_get_cached_note (some .failing) now st note_id = .ok none ∧
    safe_cache_note (some .failing) now s st note = .ok st ∧
    safe_invalidate_cache (some .failing) st note_id = .ok st ∧
    rate_limiter (some .failing) s now rst = (.ok (), rst) ∧
    safe_push_recent (some .failing) s now st (some i) note_id = .ok st ∧
    safe_get_recent (some .failing) s now st (some i) = .ok [] ∧
    safe_get_cached_note none now st note_id = .ok none ∧
    safe_cache_note none now s st note = .ok st ∧
    safe_invalidate_cache none st note_id = .ok st ∧
    safe_push_recent none s now st (some i) note_id = .ok st ∧
    safe_get_recent none s now st (some i) = .ok [] :=
  ⟨rfl, rfl, rfl, rfl, rfl, rfl, rfl, rfl, rfl, rfl, rfl⟩

/-- C5: caching a record and fetching it within the TTL yields a record
equal to the original in all fields; invalidating it and fetching yields
absent. -/
theorem cache_roundtrip (s : Settings) (note : Note) (st : Store)
    (now now' : Nat) (httl : now' < now + s.note_cache_ttl_seconds) :
    (cache_note .ok now s st note >>= fun st1 =>
      get_cached_note .ok now' st1 note.id) = .ok (some note) ∧
    (invalidate_note_cache .ok st note.id >>= fun st1 =>
      get_cached_note .ok now' st1 note.id) = .ok none := by
  constructor
  · show get_cached_note .ok now' _ note.id = .ok (some note)
    simp [get_cached_note, liveNote, httl, parseNotePayload, Except.map]
  · show get_cached_note .ok now' _ note.id = .ok none
    simp [get_cached_note, liveNote]

/-- Witness for C5 on a concrete note at times 0 and 10 with TTL 300. -/
theorem cache_roundtrip_witness :
    (cache_note .ok 0 scenarioSettings Store.empty sampleNote >>= fun st1 =>
      get_cached_note .ok 10 st1 sampleNote.id) = .ok (some sampleNote) ∧
    (invalidate_note_cache .ok Store.empty sampleNote.id >>= fun st1 =>
      get_cached_note .ok 10 st1 sampleNote.id) = .ok none :=
  cache_roundtrip scenarioSettings sampleNote Store.empty 0 10 (by decide)

/-- C6: the counter's expiration is set exactly by the first increment of a
window (to the window length) and left unchanged — neither reset nor
extended — by every later increment within the window; the conditional
`EXPIRE ... NX` primitive never touches a TTL that is already set. -/
theorem rate_ttl_set_once (s : Settings) (now c e window : Nat)
    (st : Option (Nat × Option Nat)) (hexp : liveRate now st = none)
    (hlive : now < e) :
    (rate_limiter (some .ok) s now st).2 =
      some (1, some (now + s.rate_limit_window_seconds)) ∧
    (rate_limiter (some .ok) s now (some (c, some e))).2 = some (c + 1, some e) ∧
    pipeExpireNx now window (c, some e) = (c, some e) := by
  refine ⟨?_, ?_, rfl⟩
  · rw [rate_limiter_fresh s now st hexp]
  · rw [rate_limiter_live s now c e hlive]

/-- Witness for C6: first increment at t=0 sets TTL 60; a second increment
at t=30 leaves both the TTL and the expiry primitive's output unchanged. -/
theorem rate_ttl_set_once_witness :
    (rate_limiter (some .ok) scenarioSettings 0 none).2 = some (1, some 60) ∧
    (rate_limiter (some .ok) scenarioSettings 30 (some (1, some 60))).2 =
      some (2, some 60) ∧
    pipeExpireNx 30 60 (1, some 60) = (1, some 60) :=
  rate_ttl_set_once scenarioSettings 0 1 60 60 none rfl (by decide)

/-- C10: deleting a record that is absent or already soft-deleted fails with
404 and changes nothing: no persistence write, no cache invalidation. -/
theorem delete_note_not_found_no_change (client : Option ClientState)
    (tDel : Int) (db : Int → Option Note) (st : Store) (note_id : Int)
    (h : db note_id = none ∨ ∃ n, db note_id = some n ∧ n.is_deleted = true) :
    delete_note client tDel db st note_id = (.error (.http 404), db, st) := by
  rcases h with h | ⟨n, hn, hd⟩
  · simp [delete_note, crud_get_note, h]
  · simp [delete_note, crud_get_note, hn, hd]

/-- Witness for C10: deleting the already-soft-deleted record 5 gives 404
and leaves the relational store and the cache untouched. -/
theorem delete_note_not_found_no_change_witness :
    delete_note (some .ok) 7 dbWithDeleted Store.empty 5 =
      (.error (.http 404), dbWithDeleted, Store.empty) :=
  delete_note_not_found_no_change (some .ok) 7 dbWithDeleted Store.empty 5
    (Or.inr ⟨deletedNote, rfl, rfl⟩)

/-- C1: after N requests within one window the counter equals N (the window
expiry stays at first-request-time + window); the i-th request is rejected,
with the distinguishable 429 outcome, exactly when its count i exceeds the
configured limit (so the (N+1)-th request of a run is rejected iff N+1
exceeds the limit); and a request arriving after the counter expired
restarts the count at 1 and is allowed. -/
theorem rate_limiter_window_correct (s : Settings) (t0 : Nat) (ts : List Nat)
    (hw : ∀ t ∈ ts, t < t0 + s.rate_limit_window_seconds)
    (hlim : 1 ≤ s.rate_limit) :
    (runRateRequests (some .ok) s (t0 :: ts) none).2 =
      some (ts.length + 1, some (t0 + s.rate_limit_window_seconds)) ∧
    (runRateRequests (some .ok) s (t0 :: ts) none).1 =
      (List.range (ts.length + 1)).map (fun i =>
        if s.rate_limit < i + 1 then (.error (.http 429) : Except Err Unit)
        else .ok ()) ∧
    (∀ (t c e : Nat), e ≤ t →
      rate_limiter (some .ok) s t (some (c, some e)) =
        (.ok (), some (1, some (t + s.rate_limit_window_seconds)))) := by
  have hfresh := rate_limiter_fresh s t0 none rfl
  have hrun := runRate_live s ts 1 (t0 + s.rate_limit_window_seconds) hw
  refine ⟨?_, ?_, ?_⟩
  · rw [runRateRequests_cons, hfresh]
    simp only [hrun]
    have : 1 + ts.length = ts.length + 1 := by omega
    rw [this]
  · rw [runRateRequests_cons, hfresh]
    simp only [hrun]
    rw [List.range_succ_eq_map, List.map_cons, List.map_map]
    refine congrArg₂ List.cons rfl ?_
    apply List.map_congr_left
    intro i _
    have hc : i + 1 + 1 = 1 + i + 1 := by omega
    simp only [Function.comp_apply, Nat.succ_eq_add_one, hc]
  · intro t c e hte
    have hdead : liveRate t (some (c, some e)) = none := by
      simp [liveRate, Nat.not_lt.mpr hte]
    rw [rate_limiter_fresh s t _ hdead, if_neg (by omega)]

/-- Witness for C1 on the spec's scenario: limit 3, window 60 s; requests at
0, 10, 20, 30 give counter 4 with the first three allowed and the fourth
rejected, and a request at 60 (after expiry) is allowed with count 1. -/
theorem rate_limiter_window_correct_witness :
    ((runRateRequests (some .ok) scenarioSettings [0, 10, 20, 30] none).2 =
        some (4, some 60) ∧
      (runRateRequests (some .ok) scenarioSettings [0, 10, 20, 30] none).1 =
        [.ok (), .ok (), .ok (), .error (.http 429)]) ∧
    rate_limiter (some .ok) scenarioSettings 60 (some (4, some 60)) =
      (.ok (), some (1, some 120)) :=
  ⟨⟨(rate_limiter_window_correct scenarioSettings 0 [10, 20, 30]
        (by decide) (by decide)).1,
    (rate_limiter_window_correct scenarioSettings 0 [10, 20, 30]
        (by decide) (by decide)).2.1⟩,
   (rate_limiter_window_correct scenarioSettings 0 [10, 20, 30]
        (by decide) (by decide)).2.2 60 4 60 (by decide)⟩

/-- A push through the wrapper with a reachable store and a present client
applies the pipeline to that client's key and refreshes its TTL. -/
lemma safe_push_recent_ok (s : Settings) (now : Nat) (st : Store) (i : String)
    (note_id : Int) :
    safe_push_recent (some .ok) s now st (some i) note_id =
      .ok { st with recent := (fun j =>
        if j = i then
          some (pushRecentList s.recent_notes_limit (recentOld now (st.recent i)) note_id,
            some (now + s.rate_limit_window_seconds))
        else st.recent j) } := rfl

/-- A successful recent-list push for a present client leaves the pushed
identifier at the front of that client's list. -/
lemma safe_push_recent_ok_head (s : Settings) (hlen : 1 ≤ s.recent_notes_limit)
    (now : Nat) (st : Store) (i : String) (note_id : Int) :
    ∃ st', safe_push_recent (some .ok) s now st (some i) note_id = .ok st' ∧
      (st'.recent i).map (fun q => q.1.head?) = some (some note_id) := by
  refine ⟨_, safe_push_recent_ok s now st i note_id, ?_⟩
  dsimp only
  rw [if_pos rfl]
  dsimp only [Option.map]
  rw [pushRecentList_head s.recent_notes_limit hlen]

/-- C7 (counterexample): a read that returns a soft-deleted record does push
its identifier onto the client's recent list: `GET /notes/5` with
`include_deleted=true` on a soft-deleted record succeeds and the client's
recent list becomes [5]. -/
theorem read_note_pushes_deleted :
    (read_note (some .ok) scenarioSettings 0 dbWithDeleted Store.empty
      (some "a") 5 false true).1 = .ok deletedNote ∧
    deletedNote.is_deleted = true ∧
    (read_note (some .ok) scenarioSettings 0 dbWithDeleted Store.empty
      (some "a") 5 false true).2.recent "a" = some ([5], some 60) :=
  ⟨rfl, rfl, rfl⟩

/-- C7 (amended): the recent list is updated on every successful record
read — including a read that returns a soft-deleted record (via
`include_deleted=true`, or via a stale cache entry) — with the read
identifier moved to the front of the client's list; a read that fails never
touches the client's recent list. -/
theorem read_note_push_iff_success (s : Settings) (now : Nat)
    (db : Int → Option Note) (st : Store) (i : String) (note_id : Int)
    (use_cache include_deleted : Bool) (hlen : 1 ≤ s.recent_notes_limit) :
    match read_note (some .ok) s now db st (some i) note_id use_cache include_deleted with
    | (.ok _, st') => (st'.recent i).map (fun q => q.1.head?) = some (some note_id)
    | (.error _, st') => st'.recent i = st.recent i := by
  unfold read_note
  cases huc : (if use_cache then safe_get_cached_note (some .ok) now st note_id
      else .ok none) with
  | error e => exact rfl
  | ok o =>
    cases o with
    | some n =>
      rw [safe_push_recent_ok]
      dsimp only
      rw [if_pos rfl]
      dsimp only [Option.map]
      rw [pushRecentList_head s.recent_notes_limit hlen]
    | none =>
      cases hdb : crud_get_note db note_id include_deleted with
      | none => exact rfl
      | some note =>
        dsimp only [safe_cache_note, cache_note]
        rw [safe_push_recent_ok]
        dsimp only
        rw [if_pos rfl]
        dsimp only [Option.map]
        rw [pushRecentList_head s.recent_notes_limit hlen]

/-- Witness for C7 (amended) on a concrete successful read: the soft-deleted
record 5 read with `include_deleted=true` lands at the front of the client's
recent list. -/
theorem read_note_push_iff_success_witness :
    (match read_note (some .ok) scenarioSettings 0 dbWithDeleted Store.empty
        (some "b") 5 false true with
      | (.ok _, st') => (st'.recent "b").map (fun q => q.1.head?) = some (some 5)
      | (.error _, st') => st'.recent "b" = Store.empty.recent "b") :=
  read_note_push_iff_success scenarioSettings 0 dbWithDeleted Store.empty "b" 5
    false true (by decide)

/-- The state of a rate key just after the `rate_limiter` pipeline always
carries an expiration, provided the key it started from did. -/
lemma rate_limiter_ttl_some (s : Settings) (now : Nat)
    (rst : Option (Nat × Option Nat))
    (hinv : ∀ p, rst = some p → p.2.isSome = true) :
    ∀ p, (rate_limiter (some .ok) s now rst).2 = some p → p.2.isSome = true := by
  intro p hp
  cases rst with
  | none =>
    rw [rate_limiter_fresh s now none rfl] at hp
    obtain rfl : (1, some (now + s.rate_limit_window_seconds)) = p := by
      simpa using hp
    rfl
  | some ce =>
    obtain ⟨c, e⟩ := ce
    cases e with
    | none => exact absurd (hinv (c, none) rfl) (by simp)
    | some e' =>
      by_cases hlt : now < e'
      · rw [rate_limiter_live s now c e' hlt] at hp
        obtain rfl : (c + 1, some e') = p := by simpa using hp
        rfl
      · rw [rate_limiter_fresh s now _ (by simp [liveRate, hlt])] at hp
        obtain rfl : (1, some (now + s.rate_limit_window_seconds)) = p := by
          simpa using hp
        rfl

/-- Unfolding equation for a successful `push_recent_note` pipeline. -/
lemma push_recent_note_ok_eq (s : Settings) (now : Nat) (st : Store)
    (ip : String) (note_id : Int) :
    push_recent_note .ok s now st ip note_id =
      .ok { st with recent := (fun j =>
        if j = ip then
          some (pushRecentList s.recent_notes_limit (recentOld now (st.recent ip)) note_id,
            some (now + s.rate_limit_window_seconds))
        else st.recent j) } := rfl

/-- The live list a push starts from is duplicate-free whenever the stored
lists are. -/
lemma recentOld_nodup (now : Nat) (st : Store) (ip : String)
    (hinv : ∀ q, st.recent ip = some q → q.1.Nodup) :
    (recentOld now (st.recent ip)).Nodup := by
  unfold recentOld
  cases hv : st.recent ip with
  | none => simp [liveRecent]
  | some le =>
    obtain ⟨l, e⟩ := le
    have hl : l.Nodup := hinv (l, e) hv
    cases e with
    | none => simpa [liveRecent] using hl
    | some e' =>
      by_cases hlt : now < e'
      · simpa [liveRecent, hlt] using hl
      · simp [liveRecent, hlt]

/-- C8: the rate limiter's increment + conditional-expire and the recent
list's remove + insert + trim + refresh-expire each execute as one atomic
pipeline, so under every interleaving of such batches from any clients at
any times — including batches that fail mid-operation and apply nothing —
every reachable store has an expiration on every rate counter, and every
recent list is duplicate-free, within the maximum length, and carries an
expiration. -/
theorem atomic_batches_preserve_invariants (s : Settings)
    (hlen : 1 ≤ s.recent_notes_limit) (st : Store)
    (h : CoreReachable s Store.empty st) : StoreInv s st := by
  induction h with
  | refl =>
    exact ⟨fun ip p hp => by simp [Store.empty] at hp,
           fun ip q hq => by simp [Store.empty] at hq⟩
  | tail hr hstep ih =>
    obtain ⟨ihr, ihrec⟩ := ih
    cases hstep with
    | rateBatch now ip =>
      refine ⟨?_, ihrec⟩
      intro ip' p hp
      dsimp only at hp
      by_cases hip : ip' = ip
      · rw [if_pos hip] at hp
        exact rate_limiter_ttl_some s now _ (fun q hq => ihr ip q hq) p hp
      · rw [if_neg hip] at hp
        exact ihr ip' p hp
    | pushBatch st1 now ip note_id hpush =>
      rw [push_recent_note_ok_eq] at hpush
      injection hpush with hpush
      subst hpush
      refine ⟨ihr, ?_⟩
      intro ip' q hq
      dsimp only at hq
      by_cases hip : ip' = ip
      · rw [if_pos hip] at hq
        obtain rfl := Option.some.inj hq
        have hold := recentOld_nodup now _ ip (fun q' hq' => (ihrec ip q' hq').1)
        rcases pushRecentList_nodup_length s.recent_notes_limit hlen _ note_id hold
          with ⟨h1, h2⟩
        exact ⟨h1, h2, rfl⟩
      · rw [if_neg hip] at hq
        exact ihrec ip' q hq
    | failedBatch => exact ⟨ihr, ihrec⟩

/-- Witness for C8: a three-batch interleaving (a rate-limiter batch for
client "a", a push of note 9 for client "b", a failed batch) starting from
the empty store satisfies the invariant. -/
theorem atomic_batches_preserve_invariants_witness :
    StoreInv scenarioSettings
      ((fun st2 => st2)
        ({ Store.empty with rate := (fun j =>
            if j = "a" then (rate_limiter (some .ok) scenarioSettings 0 (Store.empty.rate "a")).2
            else Store.empty.rate j) } |>
          (fun st1 => { st1 with recent := (fun j =>
            if j = "b" then
              some (pushRecentList scenarioSettings.recent_notes_limit
                  (recentOld 1 (st1.recent "b")) 9,
                some (1 + scenarioSettings.rate_limit_window_seconds))
            else st1.recent j) }))) :=
  atomic_batches_preserve_invariants scenarioSettings (by decide) _
    (CoreReachable.tail
      (CoreReachable.tail
        (CoreReachable.tail CoreReachable.refl
          (CoreStep.rateBatch Store.empty 0 "a"))
        (CoreStep.pushBatch _ _ 1 "b" 9 (push_recent_note_ok_eq scenarioSettings 1 _ "b" 9)))
      (CoreStep.failedBatch _))

/-- Invariant of the `get_redis` module state: `redis.from_url` has run at
most once, the published instance is the first-constructed client (numbered
0) exactly when construction has happened, and every caller that returned
got that client. -/
def InitInv (g : InitState) : Prop :=
  g.constructed ≤ 1 ∧
  g.inst = (if g.constructed = 0 then none else some 0) ∧
  ∀ (i c : Nat), g.pcs[i]? = some (CallerPC.done c) → c = 0 ∧ g.inst = some 0

/-- The fresh module state satisfies the invariant. -/
lemma initInv_fresh (n : Nat) : InitInv (InitState.fresh n) := by
  refine ⟨by simp [InitState.fresh], by simp [InitState.fresh], ?_⟩
  intro i c h
  unfold InitState.fresh at h
  rw [List.getElem?_replicate] at h
  by_cases hlt : i < n
  · rw [if_pos hlt] at h
    simp at h
  · rw [if_neg hlt] at h
    simp at h

/-- Every scheduler step preserves the invariant. -/
lemma initInv_step {g g' : InitState} (hstep : InitStep g g') (hinv : InitInv g) :
    InitInv g' := by
  obtain ⟨h1, h2, h3⟩ := hinv
  cases hstep with
  | fastHit i c hpc hinst =>
    have hc : c = 0 := by
      by_cases h0 : g.constructed = 0
      · rw [h2, if_pos h0] at hinst; simp at hinst
      · rw [h2, if_neg h0] at hinst; simpa using hinst.symm
    subst hc
    refine ⟨h1, h2, ?_⟩
    intro j c' hj
    by_cases hij : i = j
    · subst hij
      rw [List.getElem?_set_self', hpc] at hj
      obtain rfl : (0 : Nat) = c' := by simpa using hj
      exact ⟨rfl, hinst⟩
    · rw [List.getElem?_set_ne hij] at hj
      exact h3 j c' hj
  | fastMiss i hpc hinst =>
    refine ⟨h1, h2, ?_⟩
    intro j c' hj
    by_cases hij : i = j
    · subst hij
      rw [List.getElem?_set_self', hpc] at hj
      simp at hj
    · rw [List.getElem?_set_ne hij] at hj
      exact h3 j c' hj
  | acquire i hpc hlock =>
    refine ⟨h1, h2, ?_⟩
    intro j c' hj
    by_cases hij : i = j
    · subst hij
      rw [List.getElem?_set_self', hpc] at hj
      simp at hj
    · rw [List.getElem?_set_ne hij] at hj
      exact h3 j c' hj
  | recheckHit i c hpc hlock hinst =>
    have hc : c = 0 := by
      by_cases h0 : g.constructed = 0
      · rw [h2, if_pos h0] at hinst; simp at hinst
      · rw [h2, if_neg h0] at hinst; simpa using hinst.symm
    subst hc
    refine ⟨h1, h2, ?_⟩
    intro j c' hj
    by_cases hij : i = j
    · subst hij
      rw [List.getElem?_set_self', hpc] at hj
      obtain rfl : (0 : Nat) = c' := by simpa using hj
      exact ⟨rfl, hinst⟩
    · rw [List.getElem?_set_ne hij] at hj
      exact h3 j c' hj
  | construct i hpc hlock hinst =>
    have h0 : g.constructed = 0 := by
      by_cases h0 : g.constructed = 0
      · exact h0
      · rw [h2, if_neg h0] at hinst; simp at hinst
    refine ⟨?_, ?_, ?_⟩
    · show g.constructed + 1 ≤ 1
      omega
    · show some g.constructed = if g.constructed + 1 = 0 then none else some 0
      simp [h0]
    intro j c' hj
    by_cases hij : i = j
    · subst hij
      dsimp only at hj
      rw [List.getElem?_set_self', hpc] at hj
      obtain rfl : g.constructed = c' := by simpa using hj
      exact ⟨h0, by rw [h0]⟩
    · dsimp only at hj
      rw [List.getElem?_set_ne hij] at hj
      rcases h3 j c' hj with ⟨-, hcontra⟩
      rw [hinst] at hcontra
      simp at hcontra

/-- C9: acquiring the shared client is idempotent and race-free: in every
state reachable by any interleaving of concurrent `get_redis` callers from
a fresh process, `redis.from_url` has run at most once, all callers that
returned hold the same client, and that client is the published instance
(`from_url` builds the client lazily, so acquisition never raises for an
unreachable store). -/
theorem get_redis_initializes_once (n : Nat) (g : InitState)
    (h : InitReachable (InitState.fresh n) g) :
    g.constructed ≤ 1 ∧
    (∀ (i j ci cj : Nat), g.pcs[i]? = some (CallerPC.done ci) → g.pcs[j]? = some (CallerPC.done cj) →
      ci = cj) ∧
    (∀ (i c : Nat), g.pcs[i]? = some (CallerPC.done c) → g.inst = some c) := by
  have hinv : InitInv g := by
    induction h with
    | refl => exact initInv_fresh n
    | tail hr hstep ih => exact initInv_step hstep ih
  obtain ⟨h1, h2, h3⟩ := hinv
  refine ⟨h1, ?_, ?_⟩
  · intro i j ci cj hi hj
    rw [(h3 i ci hi).1, (h3 j cj hj).1]
  · intro i c hc
    rcases h3 i c hc with ⟨rfl, hinst⟩
    exact hinst

/-- Witness for C9: one caller runs `get_redis` to completion (fast-path
miss, lock acquisition, construction); in the resulting state the client was
constructed exactly once. -/
theorem get_redis_initializes_once_witness :
    ({ inst := some 0, lockHolder := none, constructed := 1,
       pcs := [.done 0] } : InitState).constructed ≤ 1 :=
  (get_redis_initializes_once 1 _
    (InitReachable.tail
      (InitReachable.tail
        (InitReachable.tail InitReachable.refl
          (InitStep.fastMiss (InitState.fresh 1) 0 rfl rfl))
        (InitStep.acquire _ 0 rfl rfl))
      (InitStep.construct _ 0 rfl rfl rfl))).1

end NotesAPI
